import Mathlib

/-!
Verification of the document-analysis pipeline of the `ai-corporate-agent`
repository.  The Python sources (`src/rag.py`, `src/analyzer.py`,
`src/classifier.py`, `src/llm_utils.py`, `src/doc_utils.py`) are shallowly
embedded below: pure fragments become Lean functions, external services
(vector store, language model, file system) become explicit parameters, and
machine strings are modelled over ASCII `Char` lists.  Regular expressions in
the source are fixed alternations of literal words with word boundaries; they
are embedded as explicit left-to-right scans with the same leftmost-match,
first-alternative semantics.
-/

/-! ## Python string primitives (ASCII model) -/

/-- ASCII lower-casing of one character, modelling Python `str.lower` on the
ASCII texts handled by the pipeline. -/
def pyLowerChar (c : Char) : Char :=
  if 'A' ≤ c ∧ c ≤ 'Z' then Char.ofNat (c.toNat + 32) else c

/-- Python `str.lower` over a character list. -/
def pyLower (s : List Char) : List Char := s.map pyLowerChar

/-- Python `str.lower` over a string. -/
def pyLowerS (s : String) : String := String.mk (pyLower s.data)

/-- Python whitespace (`str.strip` default set, `\s`, ASCII model). -/
def isPySpace (c : Char) : Bool :=
  c = ' ' || c = '\t' || c = '\n' || c = '\r' || c = '\x0b' || c = '\x0c'

/-- Python `str.strip()`: drop leading and trailing whitespace. -/
def pyStrip (s : List Char) : List Char :=
  ((s.dropWhile isPySpace).reverse.dropWhile isPySpace).reverse

/-- Python `str.strip()` over a string. -/
def pyStripS (s : String) : String := String.mk (pyStrip s.data)

/-- Regex word character `\w` (ASCII model): letter, digit or underscore. -/
def isWordChar (c : Char) : Bool :=
  ('a' ≤ c && c ≤ 'z') || ('A' ≤ c && c ≤ 'Z') || ('0' ≤ c && c ≤ '9') || c = '_'

/-- Whether position `i` of `s` holds a word character (out of range counts
as a non-word position, as at the ends of a string in regex matching). -/
def wordAt (s : List Char) (i : Nat) : Bool :=
  match s.get? i with
  | some c => isWordChar c
  | none => false

/-- The literal `lit` occurs in `s` starting at position `i`. -/
def litAt (s : List Char) (i : Nat) (lit : List Char) : Bool :=
  decide ((s.drop i).take lit.length = lit)

/-- Regex `\b` immediately before position `i`, for patterns that start with
a word character: holds when `i` is the string start or the previous
character is not a word character. -/
def boundaryBefore (s : List Char) (i : Nat) : Bool :=
  i = 0 || !wordAt s (i - 1)

/-- Python `pat in hay` substring test. -/
def containsSub (hay pat : List Char) : Bool :=
  (List.range (hay.length + 1)).any (fun i => litAt hay i pat)

/-- Leftmost match of an alternation `\b(t1|t2|...)\b` of literal terms that
all begin and end with word characters: scan positions left to right and at
each position try the alternatives in their source order, as the `re` engine
does; return the matched term (`group(0)`). -/
def findWordTerm (s : List Char) (terms : List (List Char)) : Option (List Char) :=
  (List.range (s.length + 1)).findSome? (fun i =>
    if boundaryBefore s i then
      terms.findSome? (fun t =>
        if litAt s i t && !wordAt s (i + t.length) then some t else none)
    else none)

/-! ## `src/rag.py` — sliding-window chunker (`chunk_text_generator`) -/

/-- One-for-one embedding of the `while` loop of `chunk_text_generator`
(`src/rag.py`), with an explicit fuel bound on the number of iterations.
`some chunks` means the loop finished within `fuel` iterations and emitted
`chunks`; `none` means the fuel was exhausted first.  Each iteration takes
`chunk = text[start:end].strip()`, yields it when non-empty, sets
`start = max(0, end - overlap)` (natural subtraction) and breaks when
`start >= text_len`. -/
def chunkLoop (chunk_size overlap : Nat) (text : List Char) :
    Nat → Nat → Option (List (List Char))
  | 0, _ => none
  | fuel + 1, start =>
    if start < text.length then
      let e := min (start + chunk_size) text.length
      let c := pyStrip ((text.drop start).take (e - start))
      let start2 := e - overlap
      let emitted := if c.isEmpty then [] else [c]
      if text.length ≤ start2 then some emitted
      else
        match chunkLoop chunk_size overlap text fuel start2 with
        | none => none
        | some rest => some (emitted ++ rest)
    else some []

/-- `chunk_text_generator(text)` with the default parameters
`chunk_size = 1200`, `overlap = 200`, run to completion under a fuel bound. -/
def chunk_text_generator (text : String) (fuel : Nat) : Option (List (List Char)) :=
  chunkLoop 1200 200 text.data fuel 0

/-! ## `src/rag.py` — ingestion (`ingest_sources`) -/

/-- Scalar metadata values admitted by `clean_metadata`. -/
inductive MetaVal where
  | s (v : String)
  | n (v : Nat)
deriving DecidableEq

/-- `clean_metadata` (`src/rag.py`): keep only non-`None` values.  (All values
produced by ingestion are already scalars, so no stringification happens.) -/
def clean_metadata (m : List (String × Option MetaVal)) : List (String × MetaVal) :=
  m.filterMap (fun p => p.2.map (fun v => (p.1, v)))

/-- A stored chunk: its document text and its cleaned metadata.  (The random
uuid id is not modelled; no claim depends on it.) -/
structure ChunkEntry where
  doc : List Char
  metadata : List (String × MetaVal)
deriving DecidableEq

/-- A page- or paragraph-unit as produced by `read_pdf` / `read_docx`. -/
structure PageUnit where
  page : Nat
  text : String
  para_index : Option Nat
deriving DecidableEq

/-- A source file presented to ingestion: name, content hash and its
extracted units. -/
structure SourceFile where
  fname : String
  fhash : String
  pages : List PageUnit
deriving DecidableEq

/-- Python `str.endswith` over the character lists of the two strings. -/
def pyEndsWith (s suffix : String) : Bool :=
  decide (s.data.drop (s.data.length - suffix.data.length) = suffix.data)

/-- The file-extension filter of `ingest_sources`. -/
def supported_ext (fname : String) : Bool :=
  pyEndsWith (pyLowerS fname) ".pdf" || pyEndsWith (pyLowerS fname) ".docx"

/-- The hashes already present in the store: `meta.get("file_hash")` over all
stored metadatas, keeping truthy (non-empty) values. -/
def store_hashes (store : List ChunkEntry) : List String :=
  store.filterMap (fun e =>
    match e.metadata.lookup "file_hash" with
    | some (MetaVal.s h) => if h = "" then none else some h
    | _ => none)

/-- Python slice loop `[text[i:i+step] for i in range(0, len(text), step)]`. -/
def py_slices (s : List Char) (step : Nat) : List (List Char) :=
  (List.range ((s.length + step - 1) / step)).map (fun i => (s.drop (i * step)).take step)

/-- Segment splitting in `ingest_sources`: pages longer than 6000 characters
are cut into 6000-character segments first. -/
def segments_of (s : List Char) : List (List Char) :=
  if 6000 < s.length then py_slices s 6000 else [s]

/-- The metadata dict built for one chunk in `ingest_sources`, after
`clean_metadata`. -/
def chunk_metadata (fname fhash : String) (pg : PageUnit) (seg_idx chunk_idx : Nat)
    (c : List Char) : List (String × MetaVal) :=
  clean_metadata
    [("source_file", some (MetaVal.s fname)),
     ("page", some (MetaVal.n pg.page)),
     ("para_index", pg.para_index.map MetaVal.n),
     ("segment_index", some (MetaVal.n seg_idx)),
     ("chunk_index", some (MetaVal.n chunk_idx)),
     ("char_count", some (MetaVal.n c.length)),
     ("file_hash", some (MetaVal.s fhash))]

/-- The innermost loop of `ingest_sources`: each chunk of one segment is
submitted to `collection.add` inside a `try/except`.  `addOk` gives the
outcome of the run's n-th add attempt; a failed add is caught, that chunk is
dropped and the loop continues with the next chunk (`chunk_idx` still
advances).  Returns the next attempt index and the entries actually stored,
in order. -/
def add_chunks (addOk : Nat → Bool) (fname fhash : String) (pg : PageUnit)
    (seg_idx : Nat) : Nat → Nat → List (List Char) → Nat × List ChunkEntry
  | attempt, _, [] => (attempt, [])
  | attempt, chunk_idx, c :: rest =>
    let e := ChunkEntry.mk c (chunk_metadata fname fhash pg seg_idx chunk_idx c)
    let r := add_chunks addOk fname fhash pg seg_idx (attempt + 1) (chunk_idx + 1) rest
    if addOk attempt then (r.1, e :: r.2) else r

/-- Entries stored for the segments of one page, in order, threading the add
attempt index; `none` when the chunker runs out of fuel on some segment (a
divergent run reaches no final store in the fueled model). -/
def entries_of_segs (fuel : Nat) (addOk : Nat → Bool) (fname fhash : String)
    (pg : PageUnit) : Nat → Nat → List (List Char) → Option (Nat × List ChunkEntry)
  | attempt, _, [] => some (attempt, [])
  | attempt, seg_idx, seg :: rest =>
    match chunkLoop 1200 200 seg fuel 0 with
    | none => none
    | some chunks =>
      let r := add_chunks addOk fname fhash pg seg_idx attempt 0 chunks
      match entries_of_segs fuel addOk fname fhash pg r.1 (seg_idx + 1) rest with
      | none => none
      | some (attempt2, more) => some (attempt2, r.2 ++ more)

/-- Entries stored for all pages of one file, in order. -/
def entries_of_pages (fuel : Nat) (addOk : Nat → Bool) (fname fhash : String) :
    Nat → List PageUnit → Option (Nat × List ChunkEntry)
  | attempt, [] => some (attempt, [])
  | attempt, pg :: rest =>
    match entries_of_segs fuel addOk fname fhash pg attempt 0 (segments_of pg.text.data) with
    | none => none
    | some (attempt2, es) =>
      match entries_of_pages fuel addOk fname fhash attempt2 rest with
      | none => none
      | some (attempt3, more) => some (attempt3, es ++ more)

/-- Per-file body of the ingestion loop: skip unsupported extensions, skip
files whose hash is in the collected `ingested` set, otherwise chunk and
append whatever the add calls accept. -/
def ingest_file (fuel : Nat) (addOk : Nat → Bool) (ingested : List String)
    (attempt : Nat) (store : List ChunkEntry) (f : SourceFile) :
    Option (Nat × List ChunkEntry) :=
  if ¬ supported_ext f.fname then some (attempt, store)
  else if f.fhash ∈ ingested then some (attempt, store)
  else
    match entries_of_pages fuel addOk f.fname f.fhash attempt f.pages with
    | none => none
    | some (attempt2, es) => some (attempt2, store ++ es)

/-- The file loop of `ingest_sources`, processing the files in order against
the hash set collected once at the start. -/
def ingest_files (fuel : Nat) (addOk : Nat → Bool) (ingested : List String) :
    Nat → List ChunkEntry → List SourceFile → Option (Nat × List ChunkEntry)
  | attempt, store, [] => some (attempt, store)
  | attempt, store, f :: rest =>
    match ingest_file fuel addOk ingested attempt store f with
    | none => none
    | some (attempt2, store2) => ingest_files fuel addOk ingested attempt2 store2 rest

/-- `ingest_sources` (`src/rag.py`): the pre-write read
`collection.get(include=["metadatas"])` sits in a `try/except` whose caught
failure leaves `existing = {}`; `existingRead` is that read's outcome, so the
ingested-hash set is the store's hashes on success and empty on failure.
The files are then processed in order. -/
def ingest_sources (fuel : Nat) (addOk : Nat → Bool) (store : List ChunkEntry)
    (existingRead : Except String Unit) (files : List SourceFile) :
    Option (List ChunkEntry) :=
  let ingested :=
    match existingRead with
    | .error _ => []
    | .ok _ => store_hashes store
  (ingest_files fuel addOk ingested 0 store files).map Prod.snd

/-! ## `src/rag.py` — retrieval (`retrieve_relevant_sections`) -/

/-- Rounding to `d` decimal places via the scale `m = 10^d`, modelling Python
`round(x, d)` on the exactly-representable values that arise here. -/
def round_scaled (m : Nat) (q : ℚ) : ℚ := ((round (q * m) : ℤ) : ℚ) / m

/-- `round(x, 4)`. -/
def round4 (q : ℚ) : ℚ := round_scaled 10000 q

/-- `round(x, 2)`. -/
def round2 (q : ℚ) : ℚ := round_scaled 100 q

/-- A structured retrieval result `{text, meta, score}`. -/
structure EvidenceItem where
  text : String
  meta : List (String × String)
  score : Option ℚ
deriving DecidableEq

/-- The raw answer of `collection.query`: ranked documents, metadatas and
distances (first row of each).  A distance of `none` models a value that
`float(...)` cannot convert. -/
structure QueryOut where
  documents : List String
  metadatas : List (List (String × String))
  distances : List (Option ℚ)

/-- Python `zip` over three lists: truncate to the shortest. -/
def pyZip3 {α β γ : Type} : List α → List β → List γ → List (α × β × γ)
  | a :: la, b :: lb, c :: lc => (a, b, c) :: pyZip3 la lb lc
  | _, _, _ => []

/-- The loop body of `retrieve_relevant_sections` building one structured
item: truncate the text to 1000 characters with an ellipsis, keep the
metadata, and score by `clamp(1 - distance, 0, 1)` rounded to 4 decimals
(`None` when the distance is unusable). -/
def struct_item (d : String) (m : List (String × String)) (dist : Option ℚ) :
    EvidenceItem :=
  let sim : Option ℚ := dist.map (fun x => max 0 (min 1 (1 - x)))
  { text := if 1000 < d.length then d.take 1000 ++ "..." else d
    meta := m
    score := sim.map round4 }

/-- The dynamic return type of `retrieve_relevant_sections`: a raw list of
document texts, or a structured list of items. -/
inductive RetrieveResult where
  | raw (docs : List String)
  | structured (items : List EvidenceItem)
deriving DecidableEq

/-- Whether the returned list (of either shape) is empty. -/
def RetrieveResult.isEmptyResult : RetrieveResult → Bool
  | .raw l => l.isEmpty
  | .structured l => l.isEmpty

/-- `retrieve_relevant_sections` (`src/rag.py`).  The two external calls are
passed as explicit outcomes: `collection` is the `get_collection` attempt and
`queryRes` the `collection.query` attempt; an `Except.error` models the
caught exception of the corresponding `try` block.  The query text and
`n_results` are absorbed into `queryRes`. -/
def retrieve_relevant_sections (collection : Except String Unit)
    (queryRes : Except String QueryOut) (return_raw : Bool) : RetrieveResult :=
  match collection with
  | .error _ => if return_raw then .raw [] else .structured []
  | .ok _ =>
    match queryRes with
    | .error _ => if return_raw then .raw [] else .structured []
    | .ok results =>
      if return_raw then .raw results.documents
      else .structured ((pyZip3 results.documents results.metadatas results.distances).map
        (fun t => struct_item t.1 t.2.1 t.2.2))

/-! ## `src/classifier.py` — `classify_doc_type` -/

/-- The keyword dictionary `DOC_TYPE_KEYWORDS`, in source (insertion) order. -/
def DOC_TYPE_KEYWORDS : List (String × List String) :=
  [("Articles of Association",
     ["articles of association", "aoa", "company articles"]),
   ("Memorandum of Association",
     ["memorandum of association", "moa", "memorandum"]),
   ("UBO Declaration Form",
     ["ultimate beneficial owner", "ubo declaration", "ubo form"]),
   ("Register of Members and Directors",
     ["register of members", "register of directors"]),
   ("Board Resolution",
     ["board resolution", "resolution of the board", "written resolution"]),
   ("Employment Contract",
     ["employment contract", "employee agreement", "terms of employment"])]

/-- The `scores` dict of `classify_doc_type`, generalized over the keyword
table: for each type, the number of its keywords occurring in the lowered
text; types with zero matches get no entry, and entries appear in the
table's insertion order. -/
def scores_of (kvs : List (String × List String)) (text_lower : List Char) :
    List (String × Nat) :=
  kvs.filterMap (fun p =>
    let c := (p.2.filter (fun kw => containsSub text_lower kw.data)).length
    if c = 0 then none else some (p.1, c))

/-- The `scores` dict for the source's keyword table. -/
def keyword_scores (text_lower : List Char) : List (String × Nat) :=
  scores_of DOC_TYPE_KEYWORDS text_lower

/-- Python `max(items, key=value)`: the first item attaining the maximal
value, scanning left to right. -/
def first_max (hd : String × Nat) (tl : List (String × Nat)) : String × Nat :=
  tl.foldl (fun acc x => if acc.2 < x.2 then x else acc) hd

/-- `classify_doc_type` (`src/classifier.py`).  `readText` is the outcome of
`docx2txt.process` (`none` models the caught read exception), `llm_response`
the raw text returned by `get_llm_response` in the fallback branch (that
helper swallows its own errors and returns the empty string). -/
def classify_doc_type (readText : Option String) (llm_response : String)
    (use_fallback : Bool) : String × ℚ :=
  match readText with
  | none => ("Unknown", 0)
  | some text =>
    if (pyStrip text.data).isEmpty then ("Unknown", 0)
    else
      match keyword_scores (pyLower text.data) with
      | best0 :: rest =>
        let best := first_max best0 rest
        let total : Nat := max 1 ((List.lookup best.1 DOC_TYPE_KEYWORDS).getD []).length
        let confidence : ℚ := min 1 ((best.2 : ℚ) / (total : ℚ))
        (best.1, round2 confidence)
      | [] =>
        if use_fallback then
          let dt :=
            if llm_response = "" then "Unknown"
            else
              match DOC_TYPE_KEYWORDS.find?
                  (fun p => containsSub (pyLower llm_response.data) (pyLower p.1.data)) with
              | some p => p.1
              | none => "Unknown"
          (dt, if dt = "Unknown" then (35 : ℚ) / 100 else (8 : ℚ) / 10)
        else ("Unknown", 0)

/-! ## `src/analyzer.py` — regex detectors -/

/-- Alternatives of `NON_ADGM_JURIS_REGEX`, in source order. -/
def NON_ADGM_TERMS : List (List Char) :=
  ["united kingdom", "uk", "england", "usa", "united states", "federal court",
   "dubai international financial centre", "difc"].map String.data

/-- Alternatives of `AMBIGUOUS_REGEX`; `best endeavou?r?s` is expanded into
its four literal instances in the engine's greedy backtracking order.  Every
alternative carries a trailing `\b` (from the group's trailing `\b`). -/
def AMBIGUOUS_TERMS : List (List Char) :=
  ["may", "best endeavours", "best endeavors", "best endeavous", "best endeavos",
   "best efforts", "endeavour to", "could"].map String.data

/-- Literals of `SIGNATURE_REGEX` (no word boundaries; each must be followed
by a character of the class `[:\s]`). -/
def SIG_TERMS : List (List Char) := ["signed", "signature", "sig"].map String.data

/-- First group of `SINGLE_SIGNATORY_REGEX`. -/
def ONE_TERMS : List (List Char) := ["one", "1"].map String.data

/-- Second group of `SINGLE_SIGNATORY_REGEX` (trailing `\b` only). -/
def SIGNATORY_TERMS : List (List Char) :=
  ["authorized signator", "authorized signatory", "signatory"].map String.data

/-- `NON_ADGM_JURIS_REGEX.search(lower)` with `m.group(0)`: leftmost matched
foreign-jurisdiction term. -/
def non_adgm_search (s : List Char) : Option (List Char) :=
  findWordTerm s NON_ADGM_TERMS

/-- `AMBIGUOUS_REGEX.search(lower)` as a Boolean. -/
def ambiguous_search (s : List Char) : Bool :=
  (findWordTerm s AMBIGUOUS_TERMS).isSome

/-- `SIGNATURE_REGEX.search(text)` as a Boolean: one of the literals followed
by a colon or whitespace character. -/
def signature_search (s : List Char) : Bool :=
  (List.range (s.length + 1)).any (fun i =>
    SIG_TERMS.any (fun t =>
      litAt s i t &&
        (match s.get? (i + t.length) with
         | some c => c = ':' || isPySpace c
         | none => false)))

/-- `SINGLE_SIGNATORY_REGEX.search(lower)` as a Boolean:
`\b(one|1)\b.*(authorized signator|authorized signatory|signatory)\b`, where
`.*` matches any characters except newline. -/
def single_signatory_search (s : List Char) : Bool :=
  (List.range (s.length + 1)).any (fun i =>
    boundaryBefore s i &&
      ONE_TERMS.any (fun t =>
        litAt s i t && !wordAt s (i + t.length) &&
          (List.range (s.length + 1)).any (fun j =>
            i + t.length ≤ j &&
              ((s.drop (i + t.length)).take (j - (i + t.length))).all (fun c => c ≠ '\n') &&
              SIGNATORY_TERMS.any (fun u => litAt s j u && !wordAt s (j + u.length)))))

/-! ## `src/doc_utils.py` — paragraph extraction -/

/-- `read_docx_paragraphs` (`src/doc_utils.py`): enumerate the document's
paragraph texts from index 0, strip each, and keep the non-empty ones with
their original indices. -/
def read_docx_paragraphs (docParas : List String) : List (Nat × String) :=
  docParas.enum.filterMap (fun p =>
    let t := pyStrip p.2.data
    if t.isEmpty then none else some (p.1, String.mk t))

/-! ## `src/analyzer.py` — `analyze_file` issue collection -/

/-- One issue finding, with the dict keys of `analyze_file`. -/
structure Issue where
  document : String
  doc_type : String
  «section» : String
  issue : String
  severity : String
  suggestion : String
  evidence : List EvidenceItem
deriving DecidableEq

/-- Document-level checks of `analyze_file`: the missing-signature check on
the lowered whole text.  `retrieve` abstracts `retrieve_evidence`. -/
def doc_level_issues (retrieve : String → Nat → List EvidenceItem)
    (basename doc_type : String) (whole_lower : List Char) : List Issue :=
  if signature_search whole_lower then []
  else
    [{ document := basename
       doc_type := doc_type
       «section» := "Signatures"
       issue := "Possible missing signature block"
       severity := "High"
       suggestion := "Add signature block with name, position and date."
       evidence := retrieve "signature block example" 2 }]

/-- Paragraph-level checks of `analyze_file`, in source order: non-ADGM
jurisdiction, ambiguous language, single authorized signatory.  Empty
paragraphs are skipped. -/
def para_checks (retrieve : String → Nat → List EvidenceItem)
    (basename doc_type : String) (idx : Nat) (text : String) : List Issue :=
  let lower := pyLower text.data
  if (pyStrip lower).isEmpty then []
  else
    (match non_adgm_search lower with
     | some found =>
       [{ document := basename
          doc_type := doc_type
          «section» := "Paragraph " ++ toString idx
          issue := "Non-ADGM jurisdiction referenced: '" ++ String.mk found ++ "'"
          severity := "High"
          suggestion := "Change jurisdiction to ADGM/ADGM Courts if incorporation is in ADGM."
          evidence := retrieve "ADGM jurisdiction requirement" 2 }]
     | none => []) ++
    (if ambiguous_search lower then
       [{ document := basename
          doc_type := doc_type
          «section» := "Paragraph " ++ toString idx
          issue := "Potentially ambiguous/non-binding language (may, best endeavours, etc.)"
          severity := "Medium"
          suggestion := "Consider using stronger binding language (e.g., 'shall') for obligations."
          evidence := retrieve "binding language shall vs may" 1 }]
     else []) ++
    (if single_signatory_search lower then
       [{ document := basename
          doc_type := doc_type
          «section» := "Paragraph " ++ toString idx
          issue := "Only one authorized signatory specified"
          severity := "Medium"
          suggestion := "Confirm checklist requirement; consider adding an additional authorized signatory."
          evidence := retrieve "signature requirement multiple signatories" 1 }]
     else [])

/-- An entry of the list returned by the LLM augmenter, as the analyzer sees
it: a dict with optional `section`, `issue`, `severity`, `suggestion` keys,
or a non-dict value. -/
inductive LlmEntry where
  | dict (sectionField issueField severityField suggestionField : Option String)
  | nondict
deriving DecidableEq

/-- The normalization `li_norm` applied to each LLM entry in `analyze_file`:
non-dicts and entries without an `issue` key are dropped; `section` defaults
to "LLM Analysis", `severity` to "Low", `suggestion` to the empty string;
LLM issues carry no evidence. -/
def normalize_llm_issue (basename doc_type : String) : LlmEntry → Option Issue
  | .dict sectionField (some i) severityField suggestionField =>
    some { document := basename
           doc_type := doc_type
           «section» := sectionField.getD "LLM Analysis"
           issue := i
           severity := severityField.getD "Low"
           suggestion := suggestionField.getD ""
           evidence := [] }
  | .dict _ none _ _ => none
  | .nondict => none

/-- The issue list built by `analyze_file` (`src/analyzer.py`, steps 5-7):
document-level checks on the joined text, then the paragraph loop in
paragraph order, then the normalized LLM findings when `use_llm` is set.
`llmItems` is the list returned by `analyze_with_llm`. -/
def analyze_issues (retrieve : String → Nat → List EvidenceItem)
    (basename doc_type : String) (paras : List (Nat × String))
    (use_llm : Bool) (llmItems : List LlmEntry) : List Issue :=
  let whole_text := String.intercalate "\n" (paras.map Prod.snd)
  doc_level_issues retrieve basename doc_type (pyLower whole_text.data) ++
  paras.flatMap (fun p => para_checks retrieve basename doc_type p.1 p.2) ++
  (if use_llm then llmItems.filterMap (normalize_llm_issue basename doc_type) else [])

/-! ## `src/analyzer.py` — output artifact paths -/

/-- `_sanitize_name`: replace characters outside `[A-Za-z0-9_.-]` by an
underscore and cap at 120 characters. -/
def sanitize_name (s : String) : String :=
  String.mk ((s.data.map (fun c =>
    if ('A' ≤ c && c ≤ 'Z') || ('a' ≤ c && c ≤ 'z') || ('0' ≤ c && c ≤ '9')
        || c = '_' || c = '.' || c = '-'
    then c else '_')).take 120)

/-- The two artifact file names computed in `analyze_file` for a run with the
given source base name (without extension) and UTC timestamp: the annotated
document `annotated_{safe}.docx` and the JSON report
`report_{safe}_{timestamp}.json`.  (The join with the outputs directory is a
fixed prefix and is not modelled.) -/
def artifact_paths (name_noext timestamp : String) : String × String :=
  ("annotated_" ++ sanitize_name name_noext ++ ".docx",
   "report_" ++ sanitize_name name_noext ++ "_" ++ timestamp ++ ".json")

/-! ## `src/llm_utils.py` — `analyze_with_llm` -/

/-- A parsed element of the JSON array returned by the model: a dict with
optional `issue`, `severity`, `suggestion` keys, or a non-dict value. -/
inductive PyEntry where
  | dict (issueField severityField suggestionField : Option String)
  | nondict
deriving DecidableEq

/-- The outcome of `_safe_extract_json` when it succeeds: a JSON list with
its elements, or some non-list value. -/
inductive LlmJson where
  | list (items : List PyEntry)
  | nonlist
deriving DecidableEq

/-- A normalized issue of `analyze_with_llm`. -/
structure NormIssue where
  issue : String
  severity : String
  suggestion : String
deriving DecidableEq

/-- The per-item normalization in `analyze_with_llm`: keep dict-shaped items
containing an `issue` key; `severity` defaults to "Low" and `suggestion` to
the empty string. -/
def normalizeEntry : PyEntry → Option NormIssue
  | .dict (some i) severityField suggestionField =>
    some { issue := i
           severity := severityField.getD "Low"
           suggestion := suggestionField.getD "" }
  | .dict none _ _ => none
  | .nondict => none

/-- The retry loop of `analyze_with_llm`, indexed by the current attempt and
the remaining number of loop iterations.  `respond` gives the text returned
by `get_llm_response` on each attempt (that helper swallows network errors
and returns the empty string); `parse` is `_safe_extract_json`
(`Except.error` models its raised `ValueError`).  The second component is
the list of back-off sleep durations `1 + attempt` executed, in order. -/
def analyzeLoop (respond : Nat → String) (parse : String → Except Unit LlmJson) :
    Nat → Nat → List NormIssue × List Nat
  | _, 0 => ([], [])
  | attempt, remaining + 1 =>
    let resp := respond attempt
    if resp = "" then ([], [])
    else
      match parse resp with
      | .ok (.list items) => (items.filterMap normalizeEntry, [])
      | .ok .nonlist => ([], [])
      | .error _ =>
        let r := analyzeLoop respond parse (attempt + 1) remaining
        (r.1, (1 + attempt) :: r.2)

/-- `analyze_with_llm` (`src/llm_utils.py`): run the loop for
`max_retries + 1` attempts starting at attempt 0; when the loop falls
through, the result is the empty list. -/
def analyze_with_llm (respond : Nat → String) (parse : String → Except Unit LlmJson)
    (max_retries : Nat) : List NormIssue × List Nat :=
  analyzeLoop respond parse 0 (max_retries + 1)

/-! ## `src/doc_utils.py` — annotation -/

/-- A record of one inserted note (the `notes` list of `annotate_docx`). -/
structure Note where
  id : Nat
  text : String
  para_index : Nat
deriving DecidableEq

/-- The inline marker built by `add_highlighted_note`. -/
def ai_note_marker (note_id : Option Nat) (note_text : String) : String :=
  " [AI NOTE" ++
    (match note_id with
     | some n => " #" ++ toString n
     | none => "") ++ ": " ++ note_text ++ "]"

/-- `add_highlighted_note`: append the highlighted marker run to the
paragraph's text. -/
def add_highlighted_note (para : String) (note_text : String) (note_id : Option Nat) :
    String :=
  para ++ ai_note_marker note_id note_text

/-- The annotation loop of `annotate_docx`: walk the annotation list with the
running `note_counter`; in-range paragraph indices get an inline note and a
`notes` record, out-of-range ones are skipped without advancing the
counter. -/
def annotLoop : List String → List (Nat × String) → Nat → List String × List Note
  | paras, [], _ => (paras, [])
  | paras, (i, c) :: rest, counter =>
    if i < paras.length then
      let paras2 := paras.set i (add_highlighted_note (paras.getD i "") c (some counter))
      let r := annotLoop paras2 rest (counter + 1)
      (r.1, ⟨counter, c, i⟩ :: r.2)
    else annotLoop paras rest counter

/-- One line of the "AI NOTES" appendix (its two runs concatenated). -/
def render_note (n : Note) : String :=
  "[AI NOTE #" ++ toString n.id ++ "] " ++
    "Paragraph index: " ++ toString n.para_index ++ ". " ++ n.text

/-- `annotate_docx` (`src/doc_utils.py`): insert the inline notes, then append
the "AI NOTES" heading and one rendered line per inserted note.  The document
is modelled as its list of paragraph texts (the page break is not a
paragraph). -/
def annotate_docx (paras : List String) (annots : List (Nat × String)) : List String :=
  let r := annotLoop paras annots 1
  r.1 ++ ["AI NOTES"] ++ r.2.map render_note

/-- Specification-side description of the notes produced from the kept
annotations, numbering them consecutively from `counter`. -/
def mkNotes : Nat → List (Nat × String) → List Note
  | _, [] => []
  | counter, (i, c) :: rest => ⟨counter, c, i⟩ :: mkNotes (counter + 1) rest

/-! ## Helper lemmas -/

/-- For any `start` still inside the text, one loop iteration of the default
chunker can neither exit the `while` condition nor reach the `break`: the next
start `min (start + 1200) len - 200` stays strictly below `len`.  Hence the
loop consumes all fuel. -/
theorem chunkLoop_no_fuel (text : List Char) :
    ∀ (fuel start : Nat), start < text.length →
      chunkLoop 1200 200 text fuel start = none := by
  intro fuel
  induction fuel with
  | zero => intro start _; rfl
  | succ n ih =>
    intro start h
    have hm : min (start + 1200) text.length ≤ text.length := min_le_right _ _
    have h2 : min (start + 1200) text.length - 200 < text.length := by omega
    simp only [chunkLoop, if_pos h, if_neg (not_le.mpr h2), ih _ h2]

/-- `round(q * m) / m` stays inside `[0, 1]` when `q` does. -/
theorem round_scaled_bounds (m : Nat) (hm : 0 < m) (q : ℚ) (h0 : 0 ≤ q) (h1 : q ≤ 1) :
    0 ≤ round_scaled m q ∧ round_scaled m q ≤ 1 := by
  have hmq : (0 : ℚ) < m := by exact_mod_cast hm
  constructor
  · apply div_nonneg _ hmq.le
    have hz : (0 : ℤ) ≤ round (q * m) := by
      rw [round_eq]
      apply Int.le_floor.mpr
      push_cast
      positivity
    exact_mod_cast hz
  · rw [round_scaled, div_le_one hmq]
    have h2 : round (q * m) ≤ round ((m : ℚ)) := by
      rw [round_eq, round_eq]
      apply Int.floor_mono
      nlinarith
    rw [round_natCast] at h2
    exact_mod_cast h2

/-- The retry loop returns the empty list and sleeps `1 + attempt` after every
attempt when each attempt yields a non-empty response that fails to parse. -/
theorem analyzeLoop_all_fail (respond : Nat → String)
    (parse : String → Except Unit LlmJson) :
    ∀ (remaining attempt : Nat),
      (∀ k, attempt ≤ k → k < attempt + remaining →
        respond k ≠ "" ∧ parse (respond k) = Except.error ()) →
      analyzeLoop respond parse attempt remaining =
        ([], List.range' (1 + attempt) remaining) := by
  intro remaining
  induction remaining with
  | zero => intro attempt _; rfl
  | succ n ih =>
    intro attempt h
    obtain ⟨hne, herr⟩ := h attempt le_rfl (by omega)
    simp only [analyzeLoop, if_neg hne, herr]
    rw [ih (attempt + 1) (fun k hk1 hk2 => h k (by omega) (by omega))]
    simp [List.range'_succ]
    omega

/-- The annotation loop's `notes` are exactly the in-range annotations,
numbered consecutively from the starting counter. -/
theorem annotLoop_snd (annots : List (Nat × String)) :
    ∀ (paras : List String) (counter : Nat),
      (annotLoop paras annots counter).2 =
        mkNotes counter (annots.filter (fun a => a.1 < paras.length)) := by
  induction annots with
  | nil => intro paras counter; rfl
  | cons a rest ih =>
    intro paras counter
    obtain ⟨i, c⟩ := a
    by_cases h : i < paras.length
    · simp only [annotLoop, if_pos h, List.filter_cons]
      rw [ih]
      simp [h, mkNotes, List.length_set]
    · simp only [annotLoop, if_neg h, List.filter_cons]
      rw [ih]
      simp [h]

/-- The ids of `mkNotes` are consecutive from the starting counter. -/
theorem mkNotes_ids :
    ∀ (l : List (Nat × String)) (counter : Nat),
      (mkNotes counter l).map Note.id = List.range' counter l.length := by
  intro l
  induction l with
  | nil => intro c; rfl
  | cons a rest ih =>
    intro c
    obtain ⟨i, s⟩ := a
    simp [mkNotes, ih, List.range'_succ]

/-- `mkNotes` preserves each kept annotation's paragraph index and message. -/
theorem mkNotes_content :
    ∀ (l : List (Nat × String)) (counter : Nat),
      (mkNotes counter l).map (fun n => (n.para_index, n.text)) = l := by
  intro l
  induction l with
  | nil => intro c; rfl
  | cons a rest ih =>
    intro c
    obtain ⟨i, s⟩ := a
    simp [mkNotes, ih]

/-- Python `max` over a non-empty item list returns a member of the list. -/
theorem first_max_mem :
    ∀ (tl : List (String × Nat)) (hd : String × Nat), first_max hd tl ∈ hd :: tl := by
  intro tl
  induction tl with
  | nil =>
    intro hd
    simp [first_max]
  | cons a rest ih =>
    intro hd
    simp only [first_max, List.foldl_cons]
    by_cases h : hd.2 < a.2
    · simp only [if_pos h]
      have hmem := ih a
      simp only [first_max] at hmem
      exact List.mem_cons_of_mem hd hmem
    · simp only [if_neg h]
      have hmem := ih hd
      simp only [first_max] at hmem
      rcases List.mem_cons.mp hmem with h1 | h1
      · rw [h1]
        exact List.mem_cons_self _ _
      · exact List.mem_cons_of_mem hd (List.mem_cons_of_mem a h1)

/-- Every entry of the `scores` dict records, for a key of the keyword table,
the positive number of that key's keywords found in the text. -/
theorem scores_of_spec (text_lower : List Char) :
    ∀ kvs : List (String × List String), (kvs.map Prod.fst).Nodup →
      ∀ q ∈ scores_of kvs text_lower,
        ∃ kws : List String,
          List.lookup q.1 kvs = some kws ∧ (q.1, kws) ∈ kvs ∧
            q.2 = (kws.filter (fun kw => containsSub text_lower kw.data)).length ∧
            0 < q.2 := by
  intro kvs
  induction kvs with
  | nil =>
    intro _ q hq
    simp [scores_of] at hq
  | cons p rest ih =>
    intro hnd q hq
    obtain ⟨k, kws0⟩ := p
    obtain ⟨hp, hrest⟩ := List.nodup_cons.mp hnd
    simp only [scores_of, List.filterMap_cons] at hq
    by_cases hc : (kws0.filter (fun kw => containsSub text_lower kw.data)).length = 0
    · rw [if_pos hc] at hq
      obtain ⟨kws, hlk, hmem, hcount, hpos⟩ := ih hrest q hq
      have hne : q.1 ≠ k := by
        intro hqk
        apply hp
        rw [← hqk]
        exact List.mem_map.mpr ⟨(q.1, kws), hmem, rfl⟩
      refine ⟨kws, ?_, List.mem_cons.mpr (Or.inr hmem), hcount, hpos⟩
      simpa [List.lookup, beq_eq_false_iff_ne.mpr hne] using hlk
    · rw [if_neg hc] at hq
      rcases List.mem_cons.mp hq with h1 | h1
      · subst h1
        refine ⟨kws0, ?_, List.mem_cons_self _ _, rfl, Nat.pos_of_ne_zero hc⟩
        simp [List.lookup]
      · obtain ⟨kws, hlk, hmem, hcount, hpos⟩ := ih hrest q h1
        have hne : q.1 ≠ k := by
          intro hqk
          apply hp
          rw [← hqk]
          exact List.mem_map.mpr ⟨(q.1, kws), hmem, rfl⟩
        refine ⟨kws, ?_, List.mem_cons.mpr (Or.inr hmem), hcount, hpos⟩
        simpa [List.lookup, beq_eq_false_iff_ne.mpr hne] using hlk

/-- The keyword table has distinct keys. -/
theorem doc_type_keywords_nodup : (DOC_TYPE_KEYWORDS.map Prod.fst).Nodup := by
  decide

/-- Every document type has at least one keyword. -/
theorem doc_type_keywords_nonempty : ∀ p ∈ DOC_TYPE_KEYWORDS, 0 < p.2.length := by
  decide

/-! ## Claim C5 -/

/-- C5: the classifier's confidence is always in `[0, 1]`; and whenever the
keyword branch fires, the winner is the first maximal scores entry, its score
is the number `k` of its `T` keywords found in the lowered text, and the
returned confidence is `min 1 (k / T)` rounded to 2 decimals. -/
theorem classifier_confidence_spec (readText : Option String) (llm_response : String)
    (use_fallback : Bool) :
    (0 ≤ (classify_doc_type readText llm_response use_fallback).2 ∧
      (classify_doc_type readText llm_response use_fallback).2 ≤ 1) ∧
    (∀ (text : String) (best0 : String × Nat) (rest : List (String × Nat)),
      readText = some text →
      (pyStrip text.data).isEmpty = false →
      keyword_scores (pyLower text.data) = best0 :: rest →
      ∃ kws : List String,
        List.lookup (first_max best0 rest).1 DOC_TYPE_KEYWORDS = some kws ∧
          (first_max best0 rest).2 =
            (kws.filter (fun kw => containsSub (pyLower text.data) kw.data)).length ∧
          classify_doc_type readText llm_response use_fallback =
            ((first_max best0 rest).1,
              round2 (min 1 (((first_max best0 rest).2 : ℚ) / (kws.length : ℚ))))) := by
  have key : ∀ (text : String), (pyStrip text.data).isEmpty = false →
      ∀ (best0 : String × Nat) (rest : List (String × Nat)),
      keyword_scores (pyLower text.data) = best0 :: rest →
      ∃ kws : List String,
        List.lookup (first_max best0 rest).1 DOC_TYPE_KEYWORDS = some kws ∧
          (first_max best0 rest).2 =
            (kws.filter (fun kw => containsSub (pyLower text.data) kw.data)).length ∧
          classify_doc_type (some text) llm_response use_fallback =
            ((first_max best0 rest).1,
              round2 (min 1 (((first_max best0 rest).2 : ℚ) / (kws.length : ℚ)))) := by
    intro text hstrip best0 rest hks
    have hbest : first_max best0 rest ∈ keyword_scores (pyLower text.data) := by
      rw [hks]
      exact first_max_mem rest best0
    obtain ⟨kws, hlk, hmem, hcount, _⟩ :=
      scores_of_spec (pyLower text.data) DOC_TYPE_KEYWORDS doc_type_keywords_nodup
        (first_max best0 rest) hbest
    have hlen : 0 < kws.length := doc_type_keywords_nonempty _ hmem
    refine ⟨kws, hlk, hcount, ?_⟩
    simp only [classify_doc_type, hstrip, Bool.false_eq_true, if_false, hks, hlk,
      Option.getD_some]
    rw [Nat.max_eq_right hlen]
  constructor
  · cases readText with
    | none => norm_num [classify_doc_type]
    | some text =>
      by_cases hstrip : (pyStrip text.data).isEmpty
      · simp [classify_doc_type, hstrip]
      · cases hks : keyword_scores (pyLower text.data) with
        | nil =>
          have hconf : ∀ dt : String,
              0 ≤ (if dt = "Unknown" then (35 : ℚ) / 100 else 8 / 10) ∧
                (if dt = "Unknown" then (35 : ℚ) / 100 else 8 / 10) ≤ 1 := by
            intro dt
            split <;> norm_num
          have hstrip' : (pyStrip text.data).isEmpty = false := by simpa using hstrip
          simp only [classify_doc_type, hstrip', Bool.false_eq_true, if_false, hks]
          cases use_fallback with
          | false => norm_num
          | true =>
            simp only [if_true]
            exact hconf _
        | cons best0 rest =>
          obtain ⟨kws, hlk, hcount, heq⟩ :=
            key text (by simpa using hstrip) best0 rest hks
          rw [heq]
          have h0 : (0 : ℚ) ≤ min 1 (((first_max best0 rest).2 : ℚ) / (kws.length : ℚ)) :=
            le_min zero_le_one (div_nonneg (Nat.cast_nonneg _) (Nat.cast_nonneg _))
          have h1 : min 1 (((first_max best0 rest).2 : ℚ) / (kws.length : ℚ)) ≤ 1 :=
            min_le_left _ _
          exact round_scaled_bounds 100 (by norm_num) _ h0 h1
  · intro text best0 rest hrt hstrip hks
    subst hrt
    exact key text hstrip best0 rest hks

/-- Witness for C5's theorem on a document containing exactly one of the
three "Articles of Association" keywords. -/
theorem classifier_confidence_spec_witness :
    ∃ kws : List String,
      List.lookup (first_max ("Articles of Association", 1) []).1 DOC_TYPE_KEYWORDS =
          some kws ∧
        (first_max ("Articles of Association", 1) []).2 =
          (kws.filter (fun kw =>
            containsSub (pyLower ("articles of association" : String).data) kw.data)).length ∧
        classify_doc_type (some "articles of association") "" true =
          ((first_max ("Articles of Association", 1) []).1,
            round2 (min 1 (((first_max ("Articles of Association", 1) []).2 : ℚ) /
              (kws.length : ℚ)))) :=
  (classifier_confidence_spec (some "articles of association") "" true).2
    "articles of association" ("Articles of Association", 1) [] rfl (by decide) (by decide)

/-! ## Claim C1 -/

/-- C1: FALSIFIED BY THE CODE (non-termination).  For the default parameters
`C = 1200`, `O = 200` and any non-empty text, the loop of
`chunk_text_generator` never terminates: the break condition
`start >= text_len` would require `max(0, end - 200) >= text_len` with
`end <= text_len`, which is impossible, so no fuel bound suffices. -/
theorem chunk_text_generator_never_terminates (text : String) (fuel : Nat)
    (h : 0 < text.data.length) : chunk_text_generator text fuel = none :=
  chunkLoop_no_fuel text.data fuel 0 h

/-- Witness for C1's theorem on the one-character text `"a"`. -/
theorem chunk_text_generator_never_terminates_witness :
    0 < ("a" : String).data.length ∧ chunk_text_generator "a" 100 = none :=
  ⟨by decide, chunk_text_generator_never_terminates "a" 100 (by decide)⟩

/-! ## Claim C3 (corrected) -/

/-- C3 as stated is false: when the pre-write metadata read fails (its
exception is caught and `existing = {}`), the ingested-hash set is empty and
a file whose hash IS associated with a stored chunk is not skipped but
re-processed — here its non-empty page sends the chunker of C1 into its
non-terminating loop, so the run never completes the claimed skip and the
store is not left unchanged. -/
theorem ingest_skip_claim_counterexample :
    ("h1" : String) ∈
        store_hashes [ChunkEntry.mk "stored chunk".data [("file_hash", MetaVal.s "h1")]] ∧
      ingest_sources 5 (fun _ => true)
          [ChunkEntry.mk "stored chunk".data [("file_hash", MetaVal.s "h1")]]
          (Except.error "metadata read failed")
          [SourceFile.mk "refs.docx" "h1" [PageUnit.mk 1 "page text" none]] ≠
        some [ChunkEntry.mk "stored chunk".data [("file_hash", MetaVal.s "h1")]] :=
  ⟨by decide, by decide⟩

/-- C3 amended: when the pre-write read of the existing metadata succeeds,
re-ingesting a file whose content hash is already associated with some stored
chunk leaves the store unchanged — the file is skipped and zero chunks are
added, for every outcome of the per-chunk add calls. -/
theorem ingest_skips_existing_hash (fuel : Nat) (addOk : Nat → Bool)
    (store : List ChunkEntry) (f : SourceFile)
    (h : f.fhash ∈ store_hashes store) :
    ingest_sources fuel addOk store (Except.ok ()) [f] = some store := by
  simp only [ingest_sources, ingest_files, ingest_file]
  by_cases hs : supported_ext f.fname <;> simp [hs, h, ingest_files]

/-- Witness for C3's amended theorem on a concrete one-entry store. -/
theorem ingest_skips_existing_hash_witness :
    ("hash1" : String) ∈
        store_hashes [ChunkEntry.mk "chunk text".data [("file_hash", MetaVal.s "hash1")]] ∧
      ingest_sources 3 (fun _ => true)
          [ChunkEntry.mk "chunk text".data [("file_hash", MetaVal.s "hash1")]]
          (Except.ok ())
          [SourceFile.mk "refs.docx" "hash1" [PageUnit.mk 1 "page text" none]] =
        some [ChunkEntry.mk "chunk text".data [("file_hash", MetaVal.s "hash1")]] :=
  ⟨by decide, ingest_skips_existing_hash 3 (fun _ => true) _ _ (by decide)⟩

/-! ## Claim C6 -/

/-- C6: when the collection is unavailable or the query fails, retrieval
returns an empty list (of either return shape); no exception reaches the
caller. -/
theorem retrieval_failure_returns_empty (collection : Except String Unit)
    (queryRes : Except String QueryOut) (return_raw : Bool)
    (h : (∃ e, collection = Except.error e) ∨ (∃ e, queryRes = Except.error e)) :
    (retrieve_relevant_sections collection queryRes return_raw).isEmptyResult = true := by
  rcases h with ⟨e, he⟩ | ⟨e, he⟩
  · subst he
    cases return_raw <;> rfl
  · subst he
    cases collection with
    | error e2 => cases return_raw <;> rfl
    | ok u => cases return_raw <;> rfl

/-- Witness for C6's theorem: an unavailable store yields an empty result. -/
theorem retrieval_failure_returns_empty_witness :
    (retrieve_relevant_sections (Except.error "store unavailable")
        (Except.ok (QueryOut.mk [] [] [])) false).isEmptyResult = true :=
  retrieval_failure_returns_empty _ _ false (Or.inl ⟨"store unavailable", rfl⟩)

/-! ## Claim C7 -/

/-- C7: each retrieved item's score is `None` exactly when the distance is
unusable, and otherwise equals `clamp(1 - distance, 0, 1)` rounded to 4
decimals, a value in `[0, 1]`; and every structured retrieval result is built
item-wise this way. -/
theorem evidence_score_clamped :
    (∀ (d : String) (m : List (String × String)) (dist : Option ℚ),
      (struct_item d m dist).score =
          dist.map (fun x => round4 (max 0 (min 1 (1 - x)))) ∧
        (∀ q : ℚ, (struct_item d m dist).score = some q → 0 ≤ q ∧ q ≤ 1)) ∧
    (∀ results : QueryOut,
      retrieve_relevant_sections (Except.ok ()) (Except.ok results) false =
        RetrieveResult.structured
          ((pyZip3 results.documents results.metadatas results.distances).map
            (fun t => struct_item t.1 t.2.1 t.2.2))) := by
  refine ⟨fun d m dist => ⟨?_, ?_⟩, fun results => rfl⟩
  · cases dist <;> rfl
  · intro q hq
    cases dist with
    | none => simp [struct_item] at hq
    | some x =>
      have hx : q = round4 (max 0 (min 1 (1 - x))) := by
        simpa [struct_item] using hq.symm
      have h0 : (0 : ℚ) ≤ max 0 (min 1 (1 - x)) := le_max_left 0 _
      have h1 : max 0 (min 1 (1 - x)) ≤ 1 := max_le zero_le_one (min_le_left 1 _)
      have := round_scaled_bounds 10000 (by norm_num) _ h0 h1
      rw [hx]
      exact this

/-- Witness for C7's theorem at distance `1/2`. -/
theorem evidence_score_clamped_witness : 0 ≤ (1 / 2 : ℚ) ∧ (1 / 2 : ℚ) ≤ 1 :=
  (evidence_score_clamped.1 "some retrieved text" [] (some (1 / 2))).2 (1 / 2)
    (by norm_num [struct_item, round4, round_scaled, round_eq])

/-! ## Claim C8 (corrected) -/

/-- C8 as stated is false: an empty model response (the shape a network
failure takes after `get_llm_response` swallows the exception) is not
retried.  With `max_retries = 2` and every response empty, the augmenter
returns immediately with no back-off sleeps at all, not the `[1, 2, 3]`
schedule the retry path would produce. -/
theorem llm_retry_claim_counterexample :
    analyze_with_llm (fun _ => "") (fun _ => Except.error ()) 2 = ([], []) ∧
      ([] : List Nat) ≠ List.range' 1 3 :=
  ⟨rfl, by decide⟩

/-- C8 amended: the augmenter never raises; on each PARSE failure of a
non-empty response it retries, re-issuing the same prompt, sleeping the
increasing back-off `1 + attempt` after every failed attempt, and after
`max_retries + 1` failed attempts returns the empty issue list; an empty
response returns the empty list immediately with no retry; a parsed list is
normalized keeping only dict entries with an `issue` key, severity
defaulting to Low and suggestion to the empty string. -/
theorem llm_augmenter_amended :
    (∀ (respond : Nat → String) (parse : String → Except Unit LlmJson)
        (max_retries : Nat),
      (∀ k, k ≤ max_retries → respond k ≠ "" ∧ parse (respond k) = Except.error ()) →
      analyze_with_llm respond parse max_retries =
          ([], List.range' 1 (max_retries + 1)) ∧
        List.Chain' (· < ·) (analyze_with_llm respond parse max_retries).2) ∧
    (∀ (respond : Nat → String) (parse : String → Except Unit LlmJson)
        (max_retries : Nat), respond 0 = "" →
      analyze_with_llm respond parse max_retries = ([], [])) ∧
    (∀ (respond : Nat → String) (parse : String → Except Unit LlmJson)
        (max_retries : Nat) (items : List PyEntry),
      respond 0 ≠ "" → parse (respond 0) = Except.ok (LlmJson.list items) →
      analyze_with_llm respond parse max_retries = (items.filterMap normalizeEntry, [])) ∧
    (∀ (i : String) (sev sug : Option String),
      normalizeEntry (PyEntry.dict (some i) sev sug) =
        some (NormIssue.mk i (sev.getD "Low") (sug.getD ""))) ∧
    (∀ sev sug : Option String, normalizeEntry (PyEntry.dict none sev sug) = none) ∧
    normalizeEntry PyEntry.nondict = none := by
  refine ⟨?_, ?_, ?_, fun i sev sug => rfl, fun sev sug => rfl, rfl⟩
  · intro respond parse max_retries h
    have hall := analyzeLoop_all_fail respond parse (max_retries + 1) 0
      (fun k hk1 hk2 => h k (by omega))
    constructor
    · simpa [analyze_with_llm] using hall
    · rw [analyze_with_llm, hall]
      exact (List.pairwise_lt_range' 1 (max_retries + 1)).chain'
  · intro respond parse max_retries h
    simp only [analyze_with_llm, analyzeLoop, if_pos h]
  · intro respond parse max_retries items hne hok
    simp only [analyze_with_llm, analyzeLoop, if_neg hne, hok]

/-- Witness for C8's amended theorem: three non-empty responses that all fail
to parse give the empty result and the back-off schedule `[1, 2, 3]`. -/
theorem llm_augmenter_amended_witness :
    analyze_with_llm (fun _ => "not json") (fun _ => Except.error ()) 2 =
      ([], List.range' 1 3) :=
  (llm_augmenter_amended.1 (fun _ => "not json") (fun _ => Except.error ()) 2
    (fun k _ => ⟨(by decide : ("not json" : String) ≠ ""), rfl⟩)).1

/-! ## Claim C9 (corrected) -/

/-- C9 as stated is false: the annotated artifact's name carries no
timestamp, so two runs on the same input name at different timestamps write
the identical annotated path. -/
theorem artifact_path_claim_counterexample :
    (artifact_paths "contract" "20240101T000000Z").1 =
        (artifact_paths "contract" "20250505T121212Z").1 ∧
      ("20240101T000000Z" : String) ≠ "20250505T121212Z" :=
  ⟨rfl, by decide⟩

/-- C9 amended: only the JSON report name appends the UTC timestamp to the
sanitized base name, so report paths of runs with distinct timestamps never
collide; the annotated document name is `annotated_{sanitized}.docx`,
independent of the timestamp, and can collide across runs. -/
theorem artifact_paths_amended :
    (∀ name_noext t1 t2 : String,
      (artifact_paths name_noext t1).1 = (artifact_paths name_noext t2).1) ∧
    (∀ name_noext t1 t2 : String, t1 ≠ t2 →
      (artifact_paths name_noext t1).2 ≠ (artifact_paths name_noext t2).2) := by
  constructor
  · intro n t1 t2
    rfl
  · intro n t1 t2 hne heq
    apply hne
    have hd := congrArg String.data heq
    simp only [artifact_paths, String.data_append, List.append_assoc] at hd
    have h1 := List.append_cancel_left (List.append_cancel_left (List.append_cancel_left hd))
    have h2 := List.append_cancel_right h1
    cases t1
    cases t2
    exact congrArg String.mk h2

/-- Witness for C9's amended theorem at two distinct timestamps. -/
theorem artifact_paths_amended_witness :
    ("20240101T000000Z" : String) ≠ "20250505T121212Z" ∧
      (artifact_paths "contract" "20240101T000000Z").2 ≠
        (artifact_paths "contract" "20250505T121212Z").2 :=
  ⟨by decide, artifact_paths_amended.2 "contract" _ _ (by decide)⟩

/-! ## Claim C10 -/

/-- C10: only annotations whose paragraph index is in range produce a note;
the produced notes are numbered consecutively from 1 in the order given,
keep each annotation's paragraph index and message, and the document ends
with the "AI NOTES" section rendering exactly the inserted notes. -/
theorem annotate_docx_notes_spec (paras : List String) (annots : List (Nat × String)) :
    ((annotLoop paras annots 1).2.map Note.id =
        List.range' 1 (annots.filter (fun a => a.1 < paras.length)).length) ∧
      ((annotLoop paras annots 1).2.map (fun n => (n.para_index, n.text)) =
        annots.filter (fun a => a.1 < paras.length)) ∧
      annotate_docx paras annots =
        (annotLoop paras annots 1).1 ++ ["AI NOTES"] ++
          (annotLoop paras annots 1).2.map render_note := by
  refine ⟨?_, ?_, rfl⟩
  · rw [annotLoop_snd, mkNotes_ids]
  · rw [annotLoop_snd, mkNotes_content]


/-! ## Claim C2 helper lemmas -/

/-- Tagging each produced issue with its paragraph's index and projecting the
tags away recovers the plain flatMap. -/
theorem flatMap_tag {α : Type} (paras : List (Nat × String)) (f : Nat × String → List α) :
    paras.flatMap f =
      (paras.flatMap (fun p => (f p).map (fun i => (p.1, i)))).map Prod.snd := by
  induction paras with
  | nil => rfl
  | cons p rest ih =>
    simp only [List.flatMap_cons, List.map_append, List.map_map]
    rw [← ih]
    simp

/-- A tag occurring in the tagged flatMap is the index of some input pair. -/
theorem tag_fst_mem {α : Type} (paras : List (Nat × String)) (f : Nat × String → List α)
    (x : Nat)
    (hx : x ∈ (paras.flatMap (fun p => (f p).map (fun i => (p.1, i)))).map Prod.fst) :
    x ∈ paras.map Prod.fst := by
  rw [List.mem_map] at hx
  obtain ⟨q, hq, hqx⟩ := hx
  rw [List.mem_flatMap] at hq
  obtain ⟨p, hp, hq2⟩ := hq
  rw [List.mem_map] at hq2
  obtain ⟨a, _, hq3⟩ := hq2
  subst hqx
  rw [← hq3]
  exact List.mem_map.mpr ⟨p, hp, rfl⟩

/-- A list of copies of one value is weakly sorted. -/
theorem pairwise_le_map_const {α : Type} (l : List α) (a : Nat) :
    (l.map (fun _ => a)).Pairwise (· ≤ ·) := by
  induction l with
  | nil => simp
  | cons x xs ih =>
    simp only [List.map_cons, List.pairwise_cons]
    refine ⟨?_, ih⟩
    intro y hy
    obtain ⟨_, _, hya⟩ := List.mem_map.mp hy
    omega

/-- When the input indices are strictly increasing, the tags of the tagged
flatMap are weakly increasing. -/
theorem tagged_pairwise {α : Type} (f : Nat × String → List α) :
    ∀ paras : List (Nat × String),
      (paras.map Prod.fst).Pairwise (· < ·) →
      ((paras.flatMap (fun p => (f p).map (fun i => (p.1, i)))).map Prod.fst).Pairwise
        (· ≤ ·) := by
  intro paras
  induction paras with
  | nil =>
    intro _
    simp
  | cons p rest ih =>
    intro h
    obtain ⟨hhead, htail⟩ := List.pairwise_cons.mp h
    simp only [List.flatMap_cons, List.map_append]
    rw [List.pairwise_append]
    refine ⟨?_, ih htail, ?_⟩
    · rw [List.map_map]
      exact pairwise_le_map_const (f p) p.1
    · intro x hx y hy
      rw [List.map_map] at hx
      obtain ⟨a, _, hxa⟩ := List.mem_map.mp hx
      have hx' : x = p.1 := by simpa using hxa.symm
      have hy' := tag_fst_mem rest f y hy
      obtain ⟨q, hq, hqy⟩ := List.mem_map.mp hy'
      have hlt := hhead q.1 (List.mem_map.mpr ⟨q, hq, rfl⟩)
      omega

/-- Every issue emitted by the paragraph checks for paragraph `idx` carries
the section label of that paragraph. -/
theorem para_checks_section (retrieve : String → Nat → List EvidenceItem)
    (basename doc_type : String) (idx : Nat) (t : String) :
    ∀ iss ∈ para_checks retrieve basename doc_type idx t,
      iss.«section» = "Paragraph " ++ toString idx := by
  intro iss h
  simp only [para_checks] at h
  split at h
  · simp at h
  · rcases List.mem_append.mp h with h' | hC
    · rcases List.mem_append.mp h' with hA | hB
      · split at hA
        · rcases List.mem_singleton.mp hA with rfl
          rfl
        · simp at hA
      · split at hB
        · rcases List.mem_singleton.mp hB with rfl
          rfl
        · simp at hB
    · split at hC
      · rcases List.mem_singleton.mp hC with rfl
        rfl
      · simp at hC

/-- Every document-level issue carries the "Signatures" section label. -/
theorem doc_level_issues_section (retrieve : String → Nat → List EvidenceItem)
    (basename doc_type : String) (whole_lower : List Char) :
    ∀ iss ∈ doc_level_issues retrieve basename doc_type whole_lower,
      iss.«section» = "Signatures" := by
  intro iss h
  simp only [doc_level_issues] at h
  split at h
  · simp at h
  · rcases List.mem_singleton.mp h with rfl
    rfl

/-- A filterMap that preserves the first component yields a sublist of the
first components. -/
theorem map_fst_filterMap_sublist {α β : Type} (g : Nat × α → Option (Nat × β))
    (hg : ∀ p q, g p = some q → q.1 = p.1) :
    ∀ l : List (Nat × α),
      List.Sublist ((l.filterMap g).map Prod.fst) (l.map Prod.fst) := by
  intro l
  induction l with
  | nil => simp
  | cons a rest ih =>
    simp only [List.filterMap_cons]
    cases hga : g a with
    | none =>
      simp only [List.map_cons]
      exact ih.cons a.1
    | some q =>
      simp only [List.map_cons]
      rw [hg a q hga]
      exact ih.cons₂ a.1

/-- The paragraph indices returned by the extractor are strictly increasing
(the original enumeration indices, with gaps where empty paragraphs were
dropped). -/
theorem read_docx_paragraphs_sorted (docParas : List String) :
    ((read_docx_paragraphs docParas).map Prod.fst).Pairwise (· < ·) := by
  have hg : ∀ (p : Nat × String) (q : Nat × String),
      (fun p : Nat × String =>
        let t := pyStrip p.2.data
        if t.isEmpty then none else some (p.1, String.mk t)) p = some q → q.1 = p.1 := by
    intro p q h
    simp only at h
    split at h
    · simp at h
    · rcases Option.some.inj h with rfl
      rfl
  have hsub := map_fst_filterMap_sublist _ hg docParas.enum
  have hrange : (docParas.enum.map Prod.fst).Pairwise (· < ·) := by
    rw [List.enum_map_fst]
    exact List.pairwise_lt_range _
  exact hrange.sublist hsub

/-! ## Claim C2 -/

/-- C2: the issue list of a report always decomposes into the document-level
findings, then the paragraph findings tagged with weakly increasing paragraph
indices (each carrying the matching "Paragraph i" section label), then the
normalized language-model findings — regardless of which detectors fired. -/
theorem report_issues_ordering (retrieve : String → Nat → List EvidenceItem)
    (basename doc_type : String) (docParas : List String) (use_llm : Bool)
    (llmItems : List LlmEntry) :
    ∃ P : List (Nat × Issue),
      analyze_issues retrieve basename doc_type (read_docx_paragraphs docParas)
          use_llm llmItems =
        doc_level_issues retrieve basename doc_type
            (pyLower (String.intercalate "\n"
              ((read_docx_paragraphs docParas).map Prod.snd)).data) ++
          P.map Prod.snd ++
          (if use_llm then llmItems.filterMap (normalize_llm_issue basename doc_type)
           else []) ∧
      P = (read_docx_paragraphs docParas).flatMap
          (fun p => (para_checks retrieve basename doc_type p.1 p.2).map
            (fun i => (p.1, i))) ∧
      (P.map Prod.fst).Chain' (· ≤ ·) ∧
      (∀ i ∈ doc_level_issues retrieve basename doc_type
          (pyLower (String.intercalate "\n"
            ((read_docx_paragraphs docParas).map Prod.snd)).data),
        i.«section» = "Signatures") ∧
      (∀ q ∈ P, q.2.«section» = "Paragraph " ++ toString q.1) := by
  refine ⟨(read_docx_paragraphs docParas).flatMap
    (fun p => (para_checks retrieve basename doc_type p.1 p.2).map (fun i => (p.1, i))),
    ?_, rfl, ?_, doc_level_issues_section retrieve basename doc_type _, ?_⟩
  · simp only [analyze_issues]
    rw [← flatMap_tag]
  · exact (tagged_pairwise _ _ (read_docx_paragraphs_sorted docParas)).chain'
  · intro q hq
    simp only [List.mem_flatMap] at hq
    obtain ⟨p, hp, hq2⟩ := hq
    obtain ⟨i, hi, hqi⟩ := List.mem_map.mp hq2
    rw [← hqi]
    exact para_checks_section retrieve basename doc_type p.1 p.2 i hi

/-! ## Claim C4 -/

/-- C4: for the single-paragraph document "The parties may cooperate under UK
law." (no signature marker), the rule engine produces exactly the three
findings: missing signature (High, document level "Signatures"), non-ADGM
jurisdiction with the matched term `'uk'` verbatim (High, paragraph 0), and
ambiguous language (Medium, paragraph 0) — for any evidence retriever and
classified type. -/
theorem single_paragraph_uk_scenario (retrieve : String → Nat → List EvidenceItem)
    (basename doc_type : String) :
    (analyze_issues retrieve basename doc_type
        (read_docx_paragraphs ["The parties may cooperate under UK law."]) false []).map
        (fun i => (i.«section», i.severity, i.issue)) =
      [("Signatures", "High", "Possible missing signature block"),
       ("Paragraph 0", "High", "Non-ADGM jurisdiction referenced: 'uk'"),
       ("Paragraph 0", "Medium",
         "Potentially ambiguous/non-binding language (may, best endeavours, etc.)")] := by
  rfl
